import Mathlib

/-
Verification of the AutoCapPPT image-captioning pipeline (src/main.py).

The embedding models the PowerPointExtractor class: shapes are a tree
(groups contain child shapes), images either extract successfully or
raise, and all side effects (files written, invalid-image log, CSV rows,
added caption text boxes) are recorded explicitly in the state.
-/

namespace AutoCapPPT

/-- MSO shape type tag: GROUP, PICTURE, or anything else. -/
inductive ShapeType where
  | group
  | picture
  | other
deriving DecidableEq

/-- An extractable image: raw bytes plus a file extension (image.blob, image.ext). -/
structure Image where
  blob : List Nat
  ext : String
deriving DecidableEq

/-- Outcome of touching shape.image: the attribute may be absent, raise on
access (or on the subsequent file write in save_image), or yield an image. -/
inductive ImageAccess where
  | noAttr
  | raises
  | ok (img : Image)
deriving DecidableEq

/-- A slide shape: type tag, name, geometry in EMU, optional text attribute,
image-access behaviour, and child shapes (nonempty only for groups). -/
inductive Shape where
  | mk (shapeType : ShapeType) (name : String) (left top width height : Int)
      (text : Option String) (image : ImageAccess) (children : List Shape)

def Shape.shapeType : Shape → ShapeType
  | .mk t _ _ _ _ _ _ _ _ => t

def Shape.name : Shape → String
  | .mk _ nm _ _ _ _ _ _ _ => nm

def Shape.left : Shape → Int
  | .mk _ _ l _ _ _ _ _ _ => l

def Shape.top : Shape → Int
  | .mk _ _ _ tp _ _ _ _ _ => tp

def Shape.width : Shape → Int
  | .mk _ _ _ _ w _ _ _ _ => w

def Shape.height : Shape → Int
  | .mk _ _ _ _ _ h _ _ _ => h

def Shape.textAttr : Shape → Option String
  | .mk _ _ _ _ _ _ tx _ _ => tx

def Shape.imageAttr : Shape → ImageAccess
  | .mk _ _ _ _ _ _ _ im _ => im

def Shape.children : Shape → List Shape
  | .mk _ _ _ _ _ _ _ _ cs => cs

/-- A slide is its ordered list of shapes. -/
structure Slide where
  shapes : List Shape

/-! ### Python string primitives

These model the exact Python string operations used by the source
(str.strip, str.splitlines on newline-separated text, str.join,
str.startswith, os.path.basename), written as plain structural recursion
over the character list so that concrete runs evaluate. -/

/-- Python str.strip(): drop leading and trailing whitespace. -/
def pyStrip (s : String) : String :=
  ⟨((s.data.dropWhile Char.isWhitespace).reverse.dropWhile Char.isWhitespace).reverse⟩

/-- Split a character list at a separator character. -/
def splitCharList (sep : Char) : List Char → List Char → List String
  | [], acc => [⟨acc.reverse⟩]
  | c :: rest, acc =>
    if c = sep then ⟨acc.reverse⟩ :: splitCharList sep rest []
    else splitCharList sep rest (c :: acc)

/-- Python str.splitlines() for newline-separated text.  (The source only
feeds this the result of joining stripped lines with a newline; callers
filter out blank lines, for which splitting on the newline character
agrees with str.splitlines.) -/
def pySplitlines (s : String) : List String :=
  splitCharList '\n' s.data []

/-- Python sep.join(xs). -/
def pyJoin (sep : String) : List String → String
  | [] => ""
  | [x] => x
  | x :: y :: xs => x ++ sep ++ pyJoin sep (y :: xs)

/-- Python s.startswith(pre). -/
def pyStartsWith (s pre : String) : Bool :=
  pre.data.isPrefixOf s.data

/-- os.path.basename: the part of the path after the last separator. -/
def pyBasename (p : String) : String :=
  ⟨(p.data.reverse.takeWhile (fun c => c ≠ '/')).reverse⟩

/-! ### Extractor state and the image tree walker -/

/-- Mutable state of one PowerPointExtractor run: the shared running image
index, the invalid-image log, plus an explicit record of every file write
performed by save_image, as (index used, full file name) in write order. -/
structure ExtractorState where
  cur_image_index : Nat
  invalid_images : List String
  saved_files : List (Nat × String)
deriving DecidableEq

/-- Fresh extractor, as built by PowerPointExtractor.__init__. -/
def initState : ExtractorState :=
  { cur_image_index := 0, invalid_images := [], saved_files := [] }

/-- save_image: build the file name from the running index and the image
extension, write the bytes (recorded in saved_files), increment the
counter, and return the basename of the written file. -/
def save_image (s : ExtractorState) (image : Image) (name : String) :
    ExtractorState × String :=
  let full := name ++ "_" ++ toString s.cur_image_index ++ "." ++ image.ext
  ({ s with
      saved_files := s.saved_files ++ [(s.cur_image_index, full)],
      cur_image_index := s.cur_image_index + 1 },
   pyBasename full)

mutual

/-- drill_for_images: recursively walk one shape.  Groups recurse into their
children in order; pictures attempt save_image, falling back to a sentinel
record plus an invalid-images entry on failure; other shapes attempt the
same save when they expose an image attribute, with failures silently
dropped. -/
def drill_for_images (s : ExtractorState) (shape : Shape) (slide_idx : Nat)
    (name : String) : ExtractorState × List (String × Option Shape) :=
  match shape with
  | .mk t nm l tp w h tx im cs =>
    match t with
    | .group => drill_list s cs slide_idx name
    | .picture =>
      match im with
      | .ok img =>
        let r := save_image s img name
        (r.1, [(r.2, some (.mk t nm l tp w h tx im cs))])
      | _ =>
        ({ s with invalid_images :=
            s.invalid_images ++ ["Slide " ++ toString slide_idx ++ ": " ++ nm] },
         [("INVALID: " ++ nm, none)])
    | .other =>
      match im with
      | .ok img =>
        let r := save_image s img name
        (r.1, [(r.2, some (.mk t nm l tp w h tx im cs))])
      | _ => (s, [])

/-- The loop over a group's child shapes, threading the extractor state and
concatenating the produced records in child order. -/
def drill_list (s : ExtractorState) (shapes : List Shape) (slide_idx : Nat)
    (name : String) : ExtractorState × List (String × Option Shape) :=
  match shapes with
  | [] => (s, [])
  | sh :: rest =>
    let r1 := drill_for_images s sh slide_idx name
    let r2 := drill_list r1.1 rest slide_idx name
    (r2.1, r1.2 ++ r2.2)

end

/-! ### Slide text and the context window builder -/

/-- get_slide_text: join every shape's non-empty stripped text with
newlines, then drop blank lines. -/
def get_slide_text (slide : Slide) : String :=
  let text := pyJoin "\n" (slide.shapes.filterMap (fun sh =>
    match sh.textAttr with
    | none => none
    | some t => if pyStrip t = "" then none else some (pyStrip t)))
  pyJoin "\n" ((pySplitlines text).filter (fun line => !(pyStrip line = "")))

/-- get_context_text: the current slide's text under a Slide Content label,
then the non-empty texts of in-bounds neighbour slides (offsets
-window..window, skipping 0, ascending) under a Related Slide Hints label,
joined by the fixed delimiters of the source. -/
def get_context_text (slides : List Slide) (current_index : Nat)
    (window : Nat) : String :=
  let main_slide_text := get_slide_text (slides.getD current_index ⟨[]⟩)
  let context_parts : List String :=
    ["Slide Content:\n" ++ pyStrip main_slide_text]
  let total : Int := slides.length
  let offsets : List Int :=
    (List.range (2 * window + 1)).map
      (fun (k : Nat) => (k : Int) - (window : Int))
  let neighbor_texts : List String := offsets.filterMap (fun off =>
    let idx : Int := (current_index : Int) + off
    if idx = (current_index : Int) then none
    else if idx < 0 ∨ total ≤ idx then none
    else
      let t := get_slide_text (slides.getD idx.toNat ⟨[]⟩)
      if pyStrip t = "" then none else some t)
  let parts :=
    if neighbor_texts.isEmpty then context_parts
    else context_parts ++
      ["\n\nRelated Slide Hints:\n" ++ pyJoin "\n\n---\n\n" neighbor_texts]
  pyJoin "\n\n" parts

/-! ### Caption requester -/

/-- Behaviour of one round-trip to the Ollama endpoint as seen by
generate_llava_caption: requests.post may raise (service unreachable),
response.json() may raise (body is not JSON), or the parsed JSON object
may or may not carry a "response" string field. -/
inductive ServiceOutcome where
  | unreachable
  | badJson
  | jsonReply (response : Option String)
deriving DecidableEq

/-- The instruction prompt composed by generate_llava_caption. -/
def llava_prompt (context_text : String) : String :=
  "You are generating a short caption for an image on a presentation slide.\n" ++
  "Focus mainly on the **Slide Content** section.\n" ++
  "Only refer to **Related Slide Hints** if the Slide Content is vague or missing.\n" ++
  "The caption must be concise and strictly no more than 25 words.\n\n" ++
  pyStrip context_text ++ "\n\nCaption:"

/-- generate_llava_caption: ok-with-caption on a normal reply (falling back
to the fixed placeholder when the "response" field is absent), and an
uncaught exception (modelled as Except.error) when the service is
unreachable or the body fails to parse as JSON. -/
def generate_llava_caption (outcome : ServiceOutcome) (context_text : String) :
    Except String String :=
  let _prompt := llava_prompt context_text
  match outcome with
  | .unreachable => .error "requests.exceptions.ConnectionError"
  | .badJson => .error "json.JSONDecodeError"
  | .jsonReply r => .ok (r.getD "[No caption generated]")

/-! ### Slide annotator -/

/-- A caption text box added by add_caption_to_slide: geometry in EMU
(Inches 0.1 = 91440 EMU, Inches 0.4 = 365760 EMU) plus the caption text. -/
structure TextBox where
  left : Int
  top : Int
  width : Int
  height : Int
  text : String

/-- add_caption_to_slide: the styled caption box placed just below the
image shape's bounding box. -/
def add_caption_to_slide (caption_text : String) (image_shape : Shape) :
    TextBox :=
  { left := image_shape.left
    top := image_shape.top + image_shape.height + 91440
    width := image_shape.width
    height := 365760
    text := caption_text }

/-! ### Session orchestrator (process_file) -/

/-- One data row of the captions CSV (after the fixed header). -/
structure CaptionRow where
  slide : Nat
  context : String
  image : String
  caption : String
deriving DecidableEq

/-- One caption text box added to a slide, with the 0-based index of the
slide it was added to and the image shape it sits under. -/
structure TextBoxEntry where
  slideIdx : Nat
  box : TextBox
  shape : Shape

/-- Everything a process_file run produces: CSV rows in write order, added
caption boxes in order, and the final extractor state. -/
structure ProcessResult where
  rows : List CaptionRow
  boxes : List TextBoxEntry
  state : ExtractorState

/-- TOP_MARGIN_THRESHOLD = 1 * 360000 EMU, as in the source. -/
def TOP_MARGIN_THRESHOLD : Int := 1 * 360000

/-- The body of the per-image loop in process_file: skip sentinel records
and records with no shape, skip shapes whose top is inside the top margin,
otherwise caption (capFn models a working service round-trip), annotate
and log. -/
def processTuple (image_output_dir slide_context : String)
    (capFn : String → String → String) (i : Nat)
    (acc : List CaptionRow × List TextBoxEntry) (t : String × Option Shape) :
    List CaptionRow × List TextBoxEntry :=
  if pyStartsWith t.1 "INVALID" then acc
  else
    match t.2 with
    | none => acc
    | some shp =>
      if shp.top < TOP_MARGIN_THRESHOLD then acc
      else
        let full_image_path := image_output_dir ++ "/" ++ t.1
        let caption := capFn full_image_path slide_context
        (acc.1 ++ [⟨i + 1, slide_context, t.1, caption⟩],
         acc.2 ++ [⟨i, add_caption_to_slide caption shp, shp⟩])

/-- The body of the per-slide loop of process_file, for a slide of index
i ≥ 1: build the context fragment, drill every top-level shape for images,
then run the per-image loop over the collected records. -/
def processSlide (ppt : List Slide) (name_base image_output_dir : String)
    (capFn : String → String → String) (acc : ProcessResult) (i : Nat)
    (slide : Slide) : ProcessResult :=
  let slide_context := get_context_text ppt i 1
  let image_name_part :=
    image_output_dir ++ "/" ++ name_base ++ "_slide" ++ toString (i + 1)
  let dr := drill_list acc.state slide.shapes (i + 1) image_name_part
  let ra := dr.2.foldl (processTuple image_output_dir slide_context capFn i)
    (acc.rows, acc.boxes)
  ⟨ra.1, ra.2, dr.1⟩

/-- The enumerate loop of process_file: walk the slides with their 0-based
index, skipping index 0 completely. -/
def processSlides (ppt : List Slide) (name_base image_output_dir : String)
    (capFn : String → String → String) :
    Nat → List Slide → ProcessResult → ProcessResult
  | _, [], acc => acc
  | i, slide :: rest, acc =>
    processSlides ppt name_base image_output_dir capFn (i + 1) rest
      (if i = 0 then acc else
        processSlide ppt name_base image_output_dir capFn acc i slide)

/-- process_file of a freshly constructed PowerPointExtractor, with capFn
standing for the captioning service's behaviour on a successful
round-trip.  (The CSV header row and the final deck save are outside the
modelled data.) -/
def process_file (ppt : List Slide) (name_base image_output_dir : String)
    (capFn : String → String → String) : ProcessResult :=
  processSlides ppt name_base image_output_dir capFn 0 ppt ⟨[], [], initState⟩

/-! ### Helper lemmas on the string primitives -/

theorem isPrefixOf_append_self (l t : List Char) : l.isPrefixOf (l ++ t) = true := by
  induction l with
  | nil => simp [List.isPrefixOf]
  | cons c cs ih => simp [List.isPrefixOf, ih]

theorem isPrefixOf_append_right {l m : List Char} (t : List Char)
    (h : l.isPrefixOf m = true) : l.isPrefixOf (m ++ t) = true := by
  induction l generalizing m with
  | nil => simp [List.isPrefixOf]
  | cons c cs ih =>
    cases m with
    | nil => simp [List.isPrefixOf] at h
    | cons d ds =>
      simp only [List.isPrefixOf, List.cons_append, Bool.and_eq_true, beq_iff_eq] at h ⊢
      exact ⟨h.1, ih h.2⟩

theorem pyStartsWith_append (a b : String) : pyStartsWith (a ++ b) a = true := by
  show a.data.isPrefixOf (a ++ b).data = true
  rw [String.data_append]
  exact isPrefixOf_append_self _ _

theorem pyStartsWith_append_right (x c a : String)
    (h : pyStartsWith x a = true) : pyStartsWith (x ++ c) a = true := by
  show a.data.isPrefixOf (x ++ c).data = true
  rw [String.data_append]
  exact isPrefixOf_append_right _ h

/-! ### Equation lemmas for the walker (definitional) -/

theorem drill_group (s : ExtractorState) (k : Nat) (name nm : String)
    (l tp w h : Int) (tx : Option String) (im : ImageAccess) (cs : List Shape) :
    drill_for_images s (.mk .group nm l tp w h tx im cs) k name =
      drill_list s cs k name := rfl

theorem drill_picture_ok (s : ExtractorState) (k : Nat) (name nm : String)
    (l tp w h : Int) (tx : Option String) (img : Image) (cs : List Shape) :
    drill_for_images s (.mk .picture nm l tp w h tx (.ok img) cs) k name =
      ((save_image s img name).1,
       [((save_image s img name).2,
         some (.mk .picture nm l tp w h tx (.ok img) cs))]) := rfl

theorem drill_picture_raises (s : ExtractorState) (k : Nat) (name nm : String)
    (l tp w h : Int) (tx : Option String) (cs : List Shape) :
    drill_for_images s (.mk .picture nm l tp w h tx .raises cs) k name =
      ({ s with invalid_images :=
          s.invalid_images ++ ["Slide " ++ toString k ++ ": " ++ nm] },
       [("INVALID: " ++ nm, none)]) := rfl

theorem drill_picture_noAttr (s : ExtractorState) (k : Nat) (name nm : String)
    (l tp w h : Int) (tx : Option String) (cs : List Shape) :
    drill_for_images s (.mk .picture nm l tp w h tx .noAttr cs) k name =
      ({ s with invalid_images :=
          s.invalid_images ++ ["Slide " ++ toString k ++ ": " ++ nm] },
       [("INVALID: " ++ nm, none)]) := rfl

theorem drill_other_ok (s : ExtractorState) (k : Nat) (name nm : String)
    (l tp w h : Int) (tx : Option String) (img : Image) (cs : List Shape) :
    drill_for_images s (.mk .other nm l tp w h tx (.ok img) cs) k name =
      ((save_image s img name).1,
       [((save_image s img name).2,
         some (.mk .other nm l tp w h tx (.ok img) cs))]) := rfl

theorem drill_other_raises (s : ExtractorState) (k : Nat) (name nm : String)
    (l tp w h : Int) (tx : Option String) (cs : List Shape) :
    drill_for_images s (.mk .other nm l tp w h tx .raises cs) k name =
      (s, []) := rfl

theorem drill_other_noAttr (s : ExtractorState) (k : Nat) (name nm : String)
    (l tp w h : Int) (tx : Option String) (cs : List Shape) :
    drill_for_images s (.mk .other nm l tp w h tx .noAttr cs) k name =
      (s, []) := rfl

theorem drill_list_nil (s : ExtractorState) (k : Nat) (name : String) :
    drill_list s [] k name = (s, []) := rfl

theorem drill_list_cons (s : ExtractorState) (k : Nat) (name : String)
    (sh : Shape) (rest : List Shape) :
    drill_list s (sh :: rest) k name =
      (((drill_list (drill_for_images s sh k name).1 rest k name).1,
        (drill_for_images s sh k name).2 ++
          (drill_list (drill_for_images s sh k name).1 rest k name).2)) := rfl

/-! ### Walker specification -/

/-- What one walker call does: the state components only grow (files,
invalid entries, counter), the indices of the new saves are exactly the
consecutive block starting at the old counter, every new file name keeps
the given name prefix, every new invalid entry names the given slide
number, and every returned record is either an INVALID sentinel carrying
no shape or the basename of one of the new saves paired with a shape. -/
def DrillOut (out : ExtractorState × List (String × Option Shape))
    (s : ExtractorState) (slide_idx : Nat) (name : String) : Prop :=
  ∃ newS newI,
    out.1.saved_files = s.saved_files ++ newS ∧
    out.1.invalid_images = s.invalid_images ++ newI ∧
    out.1.cur_image_index = s.cur_image_index + newS.length ∧
    newS.map Prod.fst = List.range' s.cur_image_index newS.length ∧
    (∀ p ∈ newS, pyStartsWith p.2 (name ++ "_") = true) ∧
    (∀ e ∈ newI, ∃ nm, e = "Slide " ++ toString slide_idx ++ ": " ++ nm) ∧
    (∀ r ∈ out.2, (∃ nm, r = ("INVALID: " ++ nm, none)) ∨
      ∃ shp p, p ∈ newS ∧ r = (pyBasename p.2, some shp))

mutual

theorem drill_for_images_spec :
    ∀ (shape : Shape) (s : ExtractorState) (k : Nat) (name : String),
      DrillOut (drill_for_images s shape k name) s k name
  | .mk .group nm l tp w ht tx im cs, s, k, name => by
    rw [drill_group]
    exact drill_list_spec cs s k name
  | .mk .picture nm l tp w ht tx (.ok img) cs, s, k, name => by
    rw [drill_picture_ok]
    refine ⟨[(s.cur_image_index,
      name ++ "_" ++ toString s.cur_image_index ++ "." ++ img.ext)], [],
      rfl, by simp [save_image], rfl, rfl, ?_, by simp, ?_⟩
    · intro p hp
      simp only [List.mem_singleton] at hp
      subst hp
      exact pyStartsWith_append_right _ _ _
        (pyStartsWith_append_right _ _ _ (pyStartsWith_append _ _))
    · intro r hr
      simp only [List.mem_singleton] at hr
      subst hr
      exact Or.inr ⟨_, _, List.mem_singleton_self _, rfl⟩
  | .mk .picture nm l tp w ht tx .raises cs, s, k, name => by
    rw [drill_picture_raises]
    refine ⟨[], ["Slide " ++ toString k ++ ": " ++ nm],
      by simp, rfl, rfl, rfl, by simp, ?_, ?_⟩
    · intro e he
      simp only [List.mem_singleton] at he
      subst he
      exact ⟨nm, rfl⟩
    · intro r hr
      simp only [List.mem_singleton] at hr
      subst hr
      exact Or.inl ⟨nm, rfl⟩
  | .mk .picture nm l tp w ht tx .noAttr cs, s, k, name => by
    rw [drill_picture_noAttr]
    refine ⟨[], ["Slide " ++ toString k ++ ": " ++ nm],
      by simp, rfl, rfl, rfl, by simp, ?_, ?_⟩
    · intro e he
      simp only [List.mem_singleton] at he
      subst he
      exact ⟨nm, rfl⟩
    · intro r hr
      simp only [List.mem_singleton] at hr
      subst hr
      exact Or.inl ⟨nm, rfl⟩
  | .mk .other nm l tp w ht tx (.ok img) cs, s, k, name => by
    rw [drill_other_ok]
    refine ⟨[(s.cur_image_index,
      name ++ "_" ++ toString s.cur_image_index ++ "." ++ img.ext)], [],
      rfl, by simp [save_image], rfl, rfl, ?_, by simp, ?_⟩
    · intro p hp
      simp only [List.mem_singleton] at hp
      subst hp
      exact pyStartsWith_append_right _ _ _
        (pyStartsWith_append_right _ _ _ (pyStartsWith_append _ _))
    · intro r hr
      simp only [List.mem_singleton] at hr
      subst hr
      exact Or.inr ⟨_, _, List.mem_singleton_self _, rfl⟩
  | .mk .other nm l tp w ht tx .raises cs, s, k, name => by
    rw [drill_other_raises]
    exact ⟨[], [], by simp, by simp, rfl, rfl, by simp, by simp, by simp⟩
  | .mk .other nm l tp w ht tx .noAttr cs, s, k, name => by
    rw [drill_other_noAttr]
    exact ⟨[], [], by simp, by simp, rfl, rfl, by simp, by simp, by simp⟩

theorem drill_list_spec :
    ∀ (shapes : List Shape) (s : ExtractorState) (k : Nat) (name : String),
      DrillOut (drill_list s shapes k name) s k name
  | [], s, k, name => by
    rw [drill_list_nil]
    exact ⟨[], [], by simp, by simp, rfl, rfl, by simp, by simp, by simp⟩
  | sh :: rest, s, k, name => by
    obtain ⟨S1, I1, hs1, hi1, hc1, hf1, hp1, he1, hr1⟩ :=
      drill_for_images_spec sh s k name
    obtain ⟨S2, I2, hs2, hi2, hc2, hf2, hp2, he2, hr2⟩ :=
      drill_list_spec rest (drill_for_images s sh k name).1 k name
    rw [drill_list_cons]
    refine ⟨S1 ++ S2, I1 ++ I2, ?_, ?_, ?_, ?_, ?_, ?_, ?_⟩
    · rw [hs2, hs1, List.append_assoc]
    · rw [hi2, hi1, List.append_assoc]
    · rw [hc2, hc1, List.length_append]
      omega
    · rw [List.map_append, hf1, hf2, hc1, List.length_append,
        Nat.add_comm S1.length S2.length]
      exact List.range'_append_1 _ _ _
    · intro p hp
      rcases List.mem_append.1 hp with hm | hm
      · exact hp1 p hm
      · exact hp2 p hm
    · intro e he
      rcases List.mem_append.1 he with hm | hm
      · exact he1 e hm
      · exact he2 e hm
    · intro r hr
      rcases List.mem_append.1 hr with hm | hm
      · rcases hr1 r hm with hsen | ⟨shp, p, hpm, hre⟩
        · exact Or.inl hsen
        · exact Or.inr ⟨shp, p, List.mem_append_left _ hpm, hre⟩
      · rcases hr2 r hm with hsen | ⟨shp, p, hpm, hre⟩
        · exact Or.inl hsen
        · exact Or.inr ⟨shp, p, List.mem_append_right _ hpm, hre⟩

end

/-! ### Orchestrator specification -/

/-- Unfolding of the per-image loop body on an explicit record. -/
theorem processTuple_eq (dir ctx : String) (capFn : String → String → String)
    (i : Nat) (acc : List CaptionRow × List TextBoxEntry) (f : String)
    (os : Option Shape) :
    processTuple dir ctx capFn i acc (f, os) =
      if pyStartsWith f "INVALID" then acc
      else
        match os with
        | none => acc
        | some shp =>
          if shp.top < TOP_MARGIN_THRESHOLD then acc
          else
            (acc.1 ++ [⟨i + 1, ctx, f, capFn (dir ++ "/" ++ f) ctx⟩],
             acc.2 ++ [⟨i, add_caption_to_slide (capFn (dir ++ "/" ++ f) ctx) shp,
               shp⟩]) := rfl

/-- Composing two consecutive blocks of save indices. -/
theorem saved_fst_compose {c : Nat} {S1 S2 : List (Nat × String)}
    (h1 : S1.map Prod.fst = List.range' c S1.length)
    (h2 : S2.map Prod.fst = List.range' (c + S1.length) S2.length) :
    (S1 ++ S2).map Prod.fst = List.range' c (S1 ++ S2).length := by
  rw [List.map_append, h1, h2, List.length_append,
    Nat.add_comm S1.length S2.length]
  exact List.range'_append_1 _ _ _

/-- The per-image loop only ever appends rows and boxes; every appended row
logs slide i+1 with the given context and every appended box goes to
slide index i. -/
theorem tupleFold_spec (dir ctx : String) (capFn : String → String → String)
    (i : Nat) :
    ∀ (ts : List (String × Option Shape)) (rows : List CaptionRow)
      (boxes : List TextBoxEntry),
      ∃ nr nbx,
        ts.foldl (processTuple dir ctx capFn i) (rows, boxes) =
          (rows ++ nr, boxes ++ nbx) ∧
        (∀ r ∈ nr, r.slide = i + 1 ∧ r.context = ctx) ∧
        (∀ b ∈ nbx, b.slideIdx = i) := by
  intro ts
  induction ts with
  | nil =>
    intro rows boxes
    exact ⟨[], [], by simp, by simp, by simp⟩
  | cons t ts ih =>
    intro rows boxes
    obtain ⟨f, os⟩ := t
    have hstep : ∃ o1 o2,
        processTuple dir ctx capFn i (rows, boxes) (f, os) =
          (rows ++ o1, boxes ++ o2) ∧
        (∀ r ∈ o1, r.slide = i + 1 ∧ r.context = ctx) ∧
        (∀ b ∈ o2, b.slideIdx = i) := by
      rw [processTuple_eq]
      by_cases h1 : pyStartsWith f "INVALID" = true
      · exact ⟨[], [], by simp [h1], by simp, by simp⟩
      · cases os with
        | none => exact ⟨[], [], by simp [h1], by simp, by simp⟩
        | some shp =>
          by_cases h2 : shp.top < TOP_MARGIN_THRESHOLD
          · exact ⟨[], [], by simp [h1, h2], by simp, by simp⟩
          · refine ⟨[⟨i + 1, ctx, f, capFn (dir ++ "/" ++ f) ctx⟩],
              [⟨i, add_caption_to_slide (capFn (dir ++ "/" ++ f) ctx) shp, shp⟩],
              by simp [h1, h2], ?_, ?_⟩
            · intro r hr
              simp only [List.mem_singleton] at hr
              subst hr
              exact ⟨rfl, rfl⟩
            · intro b hb
              simp only [List.mem_singleton] at hb
              subst hb
              rfl
    obtain ⟨o1, o2, hso, ho1, ho2⟩ := hstep
    obtain ⟨nr, nbx, hfold, hn1, hn2⟩ := ih (rows ++ o1) (boxes ++ o2)
    refine ⟨o1 ++ nr, o2 ++ nbx, ?_, ?_, ?_⟩
    · rw [List.foldl_cons, hso, hfold, List.append_assoc, List.append_assoc]
    · intro r hr
      rcases List.mem_append.1 hr with hm | hm
      · exact ho1 r hm
      · exact hn1 r hm
    · intro b hb
      rcases List.mem_append.1 hb with hm | hm
      · exact ho2 b hm
      · exact hn2 b hm

/-- One processed slide (index i ≥ 1 in the real loop, arbitrary here):
rows and boxes only grow, the new rows log slide i+1 with the slide's
context fragment, the new boxes go to slide i, and the final extractor
state is exactly the state left by drilling the slide's shapes — the
margin filter never touches the state. -/
theorem processSlide_spec (ppt : List Slide) (nb dir : String)
    (capFn : String → String → String) (acc : ProcessResult) (i : Nat)
    (slide : Slide) :
    ∃ nr nbx,
      (processSlide ppt nb dir capFn acc i slide).rows = acc.rows ++ nr ∧
      (processSlide ppt nb dir capFn acc i slide).boxes = acc.boxes ++ nbx ∧
      (processSlide ppt nb dir capFn acc i slide).state =
        (drill_list acc.state slide.shapes (i + 1)
          (dir ++ "/" ++ nb ++ "_slide" ++ toString (i + 1))).1 ∧
      (∀ r ∈ nr, r.slide = i + 1 ∧ r.context = get_context_text ppt i 1) ∧
      (∀ b ∈ nbx, b.slideIdx = i) := by
  obtain ⟨nr, nbx, hfold, h1, h2⟩ :=
    tupleFold_spec dir (get_context_text ppt i 1) capFn i
      (drill_list acc.state slide.shapes (i + 1)
        (dir ++ "/" ++ nb ++ "_slide" ++ toString (i + 1))).2
      acc.rows acc.boxes
  refine ⟨nr, nbx, ?_, ?_, rfl, h1, h2⟩
  · show (Prod.fst _) = _
    rw [hfold]
  · show (Prod.snd _) = _
    rw [hfold]

theorem processSlides_nil (ppt : List Slide) (nb dir : String)
    (capFn : String → String → String) (i0 : Nat) (acc : ProcessResult) :
    processSlides ppt nb dir capFn i0 [] acc = acc := rfl

theorem processSlides_cons (ppt : List Slide) (nb dir : String)
    (capFn : String → String → String) (i0 : Nat) (slide : Slide)
    (rest : List Slide) (acc : ProcessResult) :
    processSlides ppt nb dir capFn i0 (slide :: rest) acc =
      processSlides ppt nb dir capFn (i0 + 1) rest
        (if i0 = 0 then acc else
          processSlide ppt nb dir capFn acc i0 slide) := rfl

/-- Whole-run accumulation: walking slides from index i0 only appends to
every output, slide index 0 contributes nothing, each new row/box/saved
file/invalid entry is attributable to the slide it came from (with 1-based
numbering i+1 at every output surface), and the save indices form the
consecutive block continuing the incoming counter. -/
theorem processSlides_spec (ppt : List Slide) (nb dir : String)
    (capFn : String → String → String) :
    ∀ (slides : List Slide) (i0 : Nat) (acc : ProcessResult),
      ∃ nr nbx nS nI,
        (processSlides ppt nb dir capFn i0 slides acc).rows =
          acc.rows ++ nr ∧
        (processSlides ppt nb dir capFn i0 slides acc).boxes =
          acc.boxes ++ nbx ∧
        (processSlides ppt nb dir capFn i0 slides acc).state.saved_files =
          acc.state.saved_files ++ nS ∧
        (processSlides ppt nb dir capFn i0 slides acc).state.invalid_images =
          acc.state.invalid_images ++ nI ∧
        (processSlides ppt nb dir capFn i0 slides acc).state.cur_image_index =
          acc.state.cur_image_index + nS.length ∧
        nS.map Prod.fst =
          List.range' acc.state.cur_image_index nS.length ∧
        (∀ r ∈ nr, ∃ i, i0 ≤ i ∧ i < i0 + slides.length ∧ i ≠ 0 ∧
          r.slide = i + 1 ∧ r.context = get_context_text ppt i 1) ∧
        (∀ b ∈ nbx, ∃ i, i0 ≤ i ∧ i < i0 + slides.length ∧ i ≠ 0 ∧
          b.slideIdx = i) ∧
        (∀ p ∈ nS, ∃ i, i0 ≤ i ∧ i < i0 + slides.length ∧ i ≠ 0 ∧
          pyStartsWith p.2
            (dir ++ "/" ++ nb ++ "_slide" ++ toString (i + 1) ++ "_") = true) ∧
        (∀ e ∈ nI, ∃ i, i0 ≤ i ∧ i < i0 + slides.length ∧ i ≠ 0 ∧
          ∃ nm, e = "Slide " ++ toString (i + 1) ++ ": " ++ nm) := by
  intro slides
  induction slides with
  | nil =>
    intro i0 acc
    rw [processSlides_nil]
    exact ⟨[], [], [], [], by simp, by simp, by simp, by simp, rfl, rfl,
      by simp, by simp, by simp, by simp⟩
  | cons slide rest ih =>
    intro i0 acc
    rw [processSlides_cons]
    by_cases hi0 : i0 = 0
    · subst hi0
      rw [if_pos rfl]
      obtain ⟨nr, nbx, nS, nI, h1, h2, h3, h4, h5, h6, h7, h8, h9, h10⟩ :=
        ih 1 acc
      refine ⟨nr, nbx, nS, nI, h1, h2, h3, h4, h5, h6, ?_, ?_, ?_, ?_⟩
      · intro r hr
        obtain ⟨i, hlo, hhi, hnz, hp⟩ := h7 r hr
        exact ⟨i, by omega, by simp only [List.length_cons]; omega, hnz, hp⟩
      · intro b hb
        obtain ⟨i, hlo, hhi, hnz, hp⟩ := h8 b hb
        exact ⟨i, by omega, by simp only [List.length_cons]; omega, hnz, hp⟩
      · intro p hp
        obtain ⟨i, hlo, hhi, hnz, hq⟩ := h9 p hp
        exact ⟨i, by omega, by simp only [List.length_cons]; omega, hnz, hq⟩
      · intro e he
        obtain ⟨i, hlo, hhi, hnz, hq⟩ := h10 e he
        exact ⟨i, by omega, by simp only [List.length_cons]; omega, hnz, hq⟩
    · rw [if_neg hi0]
      obtain ⟨r0, b0, hr0, hb0, hst0, hrp0, hbp0⟩ :=
        processSlide_spec ppt nb dir capFn acc i0 slide
      obtain ⟨S0, I0, hsv0, hin0, hcur0, hfst0, hpre0, hinv0, hrec0⟩ :=
        drill_list_spec slide.shapes acc.state (i0 + 1)
          (dir ++ "/" ++ nb ++ "_slide" ++ toString (i0 + 1))
      have hsv' : (processSlide ppt nb dir capFn acc i0 slide).state.saved_files
          = acc.state.saved_files ++ S0 := by rw [hst0]; exact hsv0
      have hin' :
          (processSlide ppt nb dir capFn acc i0 slide).state.invalid_images
          = acc.state.invalid_images ++ I0 := by rw [hst0]; exact hin0
      have hcur' :
          (processSlide ppt nb dir capFn acc i0 slide).state.cur_image_index
          = acc.state.cur_image_index + S0.length := by rw [hst0]; exact hcur0
      obtain ⟨nr, nbx, nS, nI, h1, h2, h3, h4, h5, h6, h7, h8, h9, h10⟩ :=
        ih (i0 + 1) (processSlide ppt nb dir capFn acc i0 slide)
      refine ⟨r0 ++ nr, b0 ++ nbx, S0 ++ nS, I0 ++ nI,
        ?_, ?_, ?_, ?_, ?_, ?_, ?_, ?_, ?_, ?_⟩
      · rw [h1, hr0, List.append_assoc]
      · rw [h2, hb0, List.append_assoc]
      · rw [h3, hsv', List.append_assoc]
      · rw [h4, hin', List.append_assoc]
      · rw [h5, hcur', List.length_append]
        omega
      · refine saved_fst_compose hfst0 ?_
        rw [← hcur']
        exact h6
      · intro r hr
        rcases List.mem_append.1 hr with hm | hm
        · obtain ⟨hp1, hp2⟩ := hrp0 r hm
          exact ⟨i0, le_refl _, by simp only [List.length_cons]; omega,
            hi0, hp1, hp2⟩
        · obtain ⟨i, hlo, hhi, hnz, hp⟩ := h7 r hm
          exact ⟨i, by omega, by simp only [List.length_cons]; omega, hnz, hp⟩
      · intro b hb
        rcases List.mem_append.1 hb with hm | hm
        · exact ⟨i0, le_refl _, by simp only [List.length_cons]; omega,
            hi0, hbp0 b hm⟩
        · obtain ⟨i, hlo, hhi, hnz, hp⟩ := h8 b hm
          exact ⟨i, by omega, by simp only [List.length_cons]; omega, hnz, hp⟩
      · intro p hp
        rcases List.mem_append.1 hp with hm | hm
        · exact ⟨i0, le_refl _, by simp only [List.length_cons]; omega,
            hi0, hpre0 p hm⟩
        · obtain ⟨i, hlo, hhi, hnz, hq⟩ := h9 p hm
          exact ⟨i, by omega, by simp only [List.length_cons]; omega, hnz, hq⟩
      · intro e he
        rcases List.mem_append.1 he with hm | hm
        · exact ⟨i0, le_refl _, by simp only [List.length_cons]; omega,
            hi0, hinv0 e hm⟩
        · obtain ⟨i, hlo, hhi, hnz, hq⟩ := h10 e hm
          exact ⟨i, by omega, by simp only [List.length_cons]; omega, hnz, hq⟩

/-- process_file facts from a fresh extractor: every output is attributed
to a slide index between 1 and the deck length (exclusive), printed as
i + 1, and the saved-file indices are exactly 0, 1, 2, ... in save order,
matching the final counter. -/
theorem process_file_spec (ppt : List Slide) (nb dir : String)
    (capFn : String → String → String) :
    (∀ r ∈ (process_file ppt nb dir capFn).rows, ∃ i, 1 ≤ i ∧
      i < ppt.length ∧ r.slide = i + 1 ∧
      r.context = get_context_text ppt i 1) ∧
    (∀ b ∈ (process_file ppt nb dir capFn).boxes, ∃ i, 1 ≤ i ∧
      i < ppt.length ∧ b.slideIdx = i) ∧
    (∀ p ∈ (process_file ppt nb dir capFn).state.saved_files, ∃ i, 1 ≤ i ∧
      i < ppt.length ∧
      pyStartsWith p.2
        (dir ++ "/" ++ nb ++ "_slide" ++ toString (i + 1) ++ "_") = true) ∧
    (∀ e ∈ (process_file ppt nb dir capFn).state.invalid_images, ∃ i,
      1 ≤ i ∧ i < ppt.length ∧
      ∃ nm, e = "Slide " ++ toString (i + 1) ++ ": " ++ nm) ∧
    (process_file ppt nb dir capFn).state.saved_files.map Prod.fst =
      List.range (process_file ppt nb dir capFn).state.saved_files.length ∧
    (process_file ppt nb dir capFn).state.cur_image_index =
      (process_file ppt nb dir capFn).state.saved_files.length := by
  obtain ⟨nr, nbx, nS, nI, h1, h2, h3, h4, h5, h6, h7, h8, h9, h10⟩ :=
    processSlides_spec ppt nb dir capFn ppt 0 ⟨[], [], initState⟩
  have hpf : process_file ppt nb dir capFn =
      processSlides ppt nb dir capFn 0 ppt ⟨[], [], ⟨0, [], []⟩⟩ := rfl
  simp only [initState, List.nil_append, Nat.zero_add] at h1 h2 h3 h4 h5 h6
  refine ⟨?_, ?_, ?_, ?_, ?_, ?_⟩
  · intro r hr
    rw [hpf, h1] at hr
    obtain ⟨i, hlo, hhi, hnz, hp⟩ := h7 r hr
    exact ⟨i, by omega, by omega, hp⟩
  · intro b hb
    rw [hpf, h2] at hb
    obtain ⟨i, hlo, hhi, hnz, hp⟩ := h8 b hb
    exact ⟨i, by omega, by omega, hp⟩
  · intro p hp
    rw [hpf, h3] at hp
    obtain ⟨i, hlo, hhi, hnz, hq⟩ := h9 p hp
    exact ⟨i, by omega, by omega, hq⟩
  · intro e he
    rw [hpf, h4] at he
    obtain ⟨i, hlo, hhi, hnz, hq⟩ := h10 e he
    exact ⟨i, by omega, by omega, hq⟩
  · rw [hpf, h3, List.range_eq_range']
    exact h6
  · rw [hpf, h3, h5]

/-! ### Context-independence of everything except caption text

The caption text depends on the context fragment (hence on neighbouring
slides), but which images get saved, logged and annotated does not.  These
lemmas compare two runs that differ only in the deck used for context
building, tracking the context-free projections of rows and boxes. -/

/-- The context-free projection of a CSV row: slide number and image name. -/
def rowKey (r : CaptionRow) : Nat × String := (r.slide, r.image)

/-- The context-free projection of an added box: slide index and shape. -/
def boxKey (b : TextBoxEntry) : Nat × Shape := (b.slideIdx, b.shape)

/-- Two run accumulators that agree on everything except caption text. -/
def SameOutputs (a b : ProcessResult) : Prop :=
  a.state = b.state ∧
  a.rows.map rowKey = b.rows.map rowKey ∧
  a.boxes.map boxKey = b.boxes.map boxKey

theorem tupleFold_keys (dir : String) (capFn : String → String → String)
    (i : Nat) (ctx ctx' : String) :
    ∀ (ts : List (String × Option Shape)) (rows rows' : List CaptionRow)
      (boxes boxes' : List TextBoxEntry),
      rows.map rowKey = rows'.map rowKey →
      boxes.map boxKey = boxes'.map boxKey →
      (ts.foldl (processTuple dir ctx capFn i) (rows, boxes)).1.map rowKey =
        (ts.foldl (processTuple dir ctx' capFn i) (rows', boxes')).1.map
          rowKey ∧
      (ts.foldl (processTuple dir ctx capFn i) (rows, boxes)).2.map boxKey =
        (ts.foldl (processTuple dir ctx' capFn i) (rows', boxes')).2.map
          boxKey := by
  intro ts
  induction ts with
  | nil =>
    intro rows rows' boxes boxes' hr hb
    exact ⟨hr, hb⟩
  | cons t ts ih =>
    intro rows rows' boxes boxes' hr hb
    obtain ⟨f, os⟩ := t
    rw [List.foldl_cons, List.foldl_cons, processTuple_eq, processTuple_eq]
    by_cases h1 : pyStartsWith f "INVALID" = true
    · rw [if_pos h1, if_pos h1]
      exact ih rows rows' boxes boxes' hr hb
    · rw [if_neg h1, if_neg h1]
      cases os with
      | none => exact ih rows rows' boxes boxes' hr hb
      | some shp =>
        by_cases h2 : shp.top < TOP_MARGIN_THRESHOLD
        · simp only [if_pos h2]
          exact ih rows rows' boxes boxes' hr hb
        · simp only [if_neg h2]
          refine ih _ _ _ _ ?_ ?_
          · rw [List.map_append, List.map_append, hr]
            rfl
          · rw [List.map_append, List.map_append, hb]
            rfl

theorem processSlide_keys (ppt ppt' : List Slide) (nb dir : String)
    (capFn : String → String → String) (i : Nat) (slide : Slide)
    (acc acc' : ProcessResult) (h : SameOutputs acc acc') :
    SameOutputs (processSlide ppt nb dir capFn acc i slide)
      (processSlide ppt' nb dir capFn acc' i slide) := by
  obtain ⟨hst, hr, hb⟩ := h
  unfold processSlide
  rw [hst]
  obtain ⟨h1, h2⟩ := tupleFold_keys dir capFn i
    (get_context_text ppt i 1) (get_context_text ppt' i 1)
    (drill_list acc'.state slide.shapes (i + 1)
      (dir ++ "/" ++ nb ++ "_slide" ++ toString (i + 1))).2
    acc.rows acc'.rows acc.boxes acc'.boxes hr hb
  exact ⟨rfl, h1, h2⟩

theorem processSlides_keys (ppt ppt' : List Slide) (nb dir : String)
    (capFn : String → String → String) :
    ∀ (slides : List Slide) (i0 : Nat) (acc acc' : ProcessResult),
      SameOutputs acc acc' →
      SameOutputs (processSlides ppt nb dir capFn i0 slides acc)
        (processSlides ppt' nb dir capFn i0 slides acc') := by
  intro slides
  induction slides with
  | nil =>
    intro i0 acc acc' h
    rw [processSlides_nil, processSlides_nil]
    exact h
  | cons slide rest ih =>
    intro i0 acc acc' h
    rw [processSlides_cons, processSlides_cons]
    by_cases hi0 : i0 = 0
    · rw [if_pos hi0, if_pos hi0]
      exact ih (i0 + 1) acc acc' h
    · rw [if_neg hi0, if_neg hi0]
      exact ih (i0 + 1) _ _
        (processSlide_keys ppt ppt' nb dir capFn i0 slide acc acc' h)

/-! ### Claim theorems -/

/-- C2 counterexample: with the captioning service unreachable,
generate_llava_caption does not return a placeholder caption string — the
connection error escapes, so the claim that service-unreachable failures
surface as a placeholder rather than a propagating exception is false. -/
theorem C2_counterexample :
    (generate_llava_caption ServiceOutcome.unreachable "any context").isOk
      = false := rfl

/-- C2 (amended): only a JSON reply lacking the response field is guarded
— it yields the placeholder via the dictionary-get default; an unreachable
service or a non-JSON body raises, and the exception propagates out of
generate_llava_caption, aborting the file's processing. -/
theorem C2_failure_modes (ctx : String) (r : Option String) :
    generate_llava_caption ServiceOutcome.unreachable ctx =
      Except.error "requests.exceptions.ConnectionError" ∧
    generate_llava_caption ServiceOutcome.badJson ctx =
      Except.error "json.JSONDecodeError" ∧
    generate_llava_caption (ServiceOutcome.jsonReply r) ctx =
      Except.ok (r.getD "[No caption generated]") :=
  ⟨rfl, rfl, rfl⟩

/-- C7: a reply that parses as JSON but lacks the response field makes
generate_llava_caption return the fixed placeholder string, with no
exception raised. -/
theorem C7_missing_field_placeholder (ctx : String) :
    generate_llava_caption (ServiceOutcome.jsonReply none) ctx =
      Except.ok "[No caption generated]" := rfl

/-- C5: over a whole process_file run the running indices embedded in the
saved file names, in save order, are strictly increasing and pairwise
distinct — the counter is shared across nested groups and across slides. -/
theorem C5_running_index_strict_mono (ppt : List Slide) (nb dir : String)
    (capFn : String → String → String) :
    (((process_file ppt nb dir capFn).state.saved_files.map
      Prod.fst).Pairwise (· < ·)) ∧
    ((process_file ppt nb dir capFn).state.saved_files.map Prod.fst).Nodup
    := by
  obtain ⟨-, -, -, -, hfst, -⟩ := process_file_spec ppt nb dir capFn
  rw [hfst]
  exact ⟨List.pairwise_lt_range _, List.nodup_range _⟩

/-- C9: the counter is bumped only by a completed save, so the indices in
the saved file names of one run are exactly 0, 1, 2, ... in order and the
final counter equals the number of saves; a failing PICTURE extraction
leaves counter and saved files untouched, and a failing non-PICTURE
extraction leaves the whole state untouched. -/
theorem C9_consecutive_indices (ppt : List Slide) (nb dir : String)
    (capFn : String → String → String) :
    ((process_file ppt nb dir capFn).state.saved_files.map Prod.fst =
      List.range
        (process_file ppt nb dir capFn).state.saved_files.length) ∧
    ((process_file ppt nb dir capFn).state.cur_image_index =
      (process_file ppt nb dir capFn).state.saved_files.length) ∧
    (∀ (s : ExtractorState) (shape : Shape) (k : Nat) (name : String),
      shape.shapeType = ShapeType.picture →
      (∀ img, shape.imageAttr ≠ ImageAccess.ok img) →
      (drill_for_images s shape k name).1.cur_image_index =
        s.cur_image_index ∧
      (drill_for_images s shape k name).1.saved_files = s.saved_files) ∧
    (∀ (s : ExtractorState) (shape : Shape) (k : Nat) (name : String),
      shape.shapeType = ShapeType.other →
      (∀ img, shape.imageAttr ≠ ImageAccess.ok img) →
      (drill_for_images s shape k name).1 = s) := by
  obtain ⟨-, -, -, -, hfst, hcur⟩ := process_file_spec ppt nb dir capFn
  refine ⟨hfst, hcur, ?_, ?_⟩
  · rintro s ⟨t, nm, l, tp, w, ht, tx, im, cs⟩ k name htype him
    cases t with
    | group => simp [Shape.shapeType] at htype
    | other => simp [Shape.shapeType] at htype
    | picture =>
      cases im with
      | ok img => exact absurd rfl (him img)
      | raises => rw [drill_picture_raises]; exact ⟨rfl, rfl⟩
      | noAttr => rw [drill_picture_noAttr]; exact ⟨rfl, rfl⟩
  · rintro s ⟨t, nm, l, tp, w, ht, tx, im, cs⟩ k name htype him
    cases t with
    | group => simp [Shape.shapeType] at htype
    | picture => simp [Shape.shapeType] at htype
    | other =>
      cases im with
      | ok img => exact absurd rfl (him img)
      | raises => rw [drill_other_raises]
      | noAttr => rw [drill_other_noAttr]

/-- C9 witness: a failing picture extraction on a concrete state with
counter 5 leaves the counter at 5. -/
theorem C9_consecutive_witness :
    (drill_for_images ⟨5, [], [(0, "x"), (1, "y")]⟩
      (Shape.mk .picture "Bad" 0 0 0 0 none .raises []) 4
      "n").1.cur_image_index = 5 :=
  ((C9_consecutive_indices [] "" "" (fun _ _ => "")).2.2.1
    ⟨5, [], [(0, "x"), (1, "y")]⟩
    (Shape.mk .picture "Bad" 0 0 0 0 none .raises []) 4 "n" rfl
    (fun _ h => ImageAccess.noConfusion h)).1

/-- C4: a PICTURE shape whose extraction fails produces the sentinel
record (INVALID shape-name, no shape), appends exactly one entry naming
the shape and its slide number to the invalid-images list, and the scan
continues over the sibling shapes with only that state change. -/
theorem C4_invalid_sentinel (s : ExtractorState) (rest : List Shape)
    (k : Nat) (name nm : String) (l tp w ht : Int) (tx : Option String)
    (im : ImageAccess) (cs : List Shape)
    (him : ∀ img, im ≠ ImageAccess.ok img) :
    drill_for_images s (.mk .picture nm l tp w ht tx im cs) k name =
      ({ s with invalid_images :=
          s.invalid_images ++ ["Slide " ++ toString k ++ ": " ++ nm] },
       [("INVALID: " ++ nm, none)]) ∧
    drill_list s ((Shape.mk .picture nm l tp w ht tx im cs) :: rest) k
        name =
      ((drill_list
          { s with invalid_images :=
              s.invalid_images ++ ["Slide " ++ toString k ++ ": " ++ nm] }
          rest k name).1,
       ("INVALID: " ++ nm, none) ::
        (drill_list
          { s with invalid_images :=
              s.invalid_images ++ ["Slide " ++ toString k ++ ": " ++ nm] }
          rest k name).2) := by
  cases im with
  | ok img => exact absurd rfl (him img)
  | raises =>
    refine ⟨drill_picture_raises s k name nm l tp w ht tx cs, ?_⟩
    rw [drill_list_cons, drill_picture_raises]
    rfl
  | noAttr =>
    refine ⟨drill_picture_noAttr s k name nm l tp w ht tx cs, ?_⟩
    rw [drill_list_cons, drill_picture_noAttr]
    rfl

/-- C4 witness: a failing picture followed by a good sibling on slide 3 —
one invalid entry naming shape and slide, the sentinel record first, and
the sibling still extracted. -/
theorem C4_invalid_sentinel_witness :
    drill_list initState
      [Shape.mk .picture "Bad" 0 0 0 0 none .raises [],
       Shape.mk .picture "Good" 0 0 0 0 none (.ok ⟨[1], "png"⟩) []] 3
      "im/d_slide3" =
      (⟨1, ["Slide 3: Bad"], [(0, "im/d_slide3_0.png")]⟩,
       [("INVALID: Bad", none),
        ("d_slide3_0.png",
         some (Shape.mk .picture "Good" 0 0 0 0 none (.ok ⟨[1], "png"⟩)
           []))]) := by
  rw [(C4_invalid_sentinel initState
    [Shape.mk .picture "Good" 0 0 0 0 none (.ok ⟨[1], "png"⟩) []] 3
    "im/d_slide3" "Bad" 0 0 0 0 none .raises []
    (fun _ h => ImageAccess.noConfusion h)).2]
  rfl

/-- Two-slide deck: empty title slide, then one successfully extracting
picture whose top is 500000 EMU — between 1 cm (360000) and 1 inch
(914400). -/
def deckC1 : List Slide :=
  [⟨[]⟩,
   ⟨[Shape.mk .picture "pic" 10 500000 200 100 none (.ok ⟨[7], "png"⟩)
     []]⟩]

/-- C1 counterexample: an image whose top (500000 EMU) is below the
claimed 1-inch threshold (914400 EMU) is nevertheless captioned, logged
and annotated — the code's threshold is not 1 inch. -/
theorem C1_counterexample :
    ((500000 : Int) < 914400) ∧
    (process_file deckC1 "deck" "im" (fun _ _ => "cap")).rows.map
      CaptionRow.image = ["deck_slide2_0.png"] ∧
    (process_file deckC1 "deck" "im" (fun _ _ => "cap")).boxes.length = 1
    := by
  refine ⟨by decide, by decide, by decide⟩

/-- C1 (amended): for a successfully extracted image record the per-image
loop rejects it (no row, no box) exactly when the shape's top is below
360000 EMU — one centimetre in EMU, not one inch — and otherwise
captions, annotates and logs it. -/
theorem C1_margin_filter (dir ctx : String)
    (capFn : String → String → String) (i : Nat)
    (acc : List CaptionRow × List TextBoxEntry) (f : String) (shp : Shape)
    (h : pyStartsWith f "INVALID" = false) :
    processTuple dir ctx capFn i acc (f, some shp) =
      if shp.top < 360000 then acc
      else
        (acc.1 ++ [⟨i + 1, ctx, f, capFn (dir ++ "/" ++ f) ctx⟩],
         acc.2 ++ [⟨i, add_caption_to_slide (capFn (dir ++ "/" ++ f) ctx)
           shp, shp⟩]) := by
  rw [processTuple_eq]
  simp only [h, Bool.false_eq_true, if_false]
  have ht : TOP_MARGIN_THRESHOLD = (360000 : Int) := by
    norm_num [TOP_MARGIN_THRESHOLD]
  rw [ht]

/-- C1 witness: a record whose shape top is 100000 EMU (below 1 cm) is
rejected by the per-image loop. -/
theorem C1_margin_filter_witness :
    processTuple "im" "c" (fun _ _ => "cap") 1 ([], [])
      ("f.png", some (Shape.mk .picture "p" 0 100000 5 5 none .raises []))
      = ([], []) := by
  rw [C1_margin_filter "im" "c" (fun _ _ => "cap") 1 ([], []) "f.png"
    (Shape.mk .picture "p" 0 100000 5 5 none .raises []) (by decide)]
  rfl

/-- A picture shape that extracts successfully, placed below the margin. -/
def goodShape : Shape :=
  Shape.mk .picture "Good" 0 400000 9 9 none (.ok ⟨[1], "png"⟩) []

/-- C8: extraction writes the image file before the margin filter runs —
the per-slide state (files on disk, counter, invalid list) is exactly the
drill result and the filter never touches it; every successful record has
its file among the saved files; and a record whose shape is inside the
margin adds no row and no box (it only skips caption, annotation, log). -/
theorem C8_save_before_filter (ppt : List Slide) (nb dir : String)
    (capFn : String → String → String) (acc : ProcessResult) (i : Nat)
    (slide : Slide) :
    ((processSlide ppt nb dir capFn acc i slide).state =
      (drill_list acc.state slide.shapes (i + 1)
        (dir ++ "/" ++ nb ++ "_slide" ++ toString (i + 1))).1) ∧
    (∀ (s : ExtractorState) (shapes : List Shape) (k : Nat)
      (name f : String) (shp : Shape),
      (f, some shp) ∈ (drill_list s shapes k name).2 →
      ∃ p ∈ (drill_list s shapes k name).1.saved_files,
        pyBasename p.2 = f) ∧
    (∀ (dir2 ctx : String) (capFn2 : String → String → String) (j : Nat)
      (acc2 : List CaptionRow × List TextBoxEntry) (f : String)
      (shp : Shape),
      shp.top < TOP_MARGIN_THRESHOLD →
      processTuple dir2 ctx capFn2 j acc2 (f, some shp) = acc2) := by
  refine ⟨?_, ?_, ?_⟩
  · obtain ⟨nr, nbx, -, -, hst, -, -⟩ :=
      processSlide_spec ppt nb dir capFn acc i slide
    exact hst
  · intro s shapes k name f shp hmem
    obtain ⟨S, I, hs, -, -, -, -, -, hrec⟩ := drill_list_spec shapes s k name
    rcases hrec _ hmem with ⟨nm, heq⟩ | ⟨shp2, p, hp, heq⟩
    · exact absurd (congrArg Prod.snd heq) (by simp)
    · injection heq with hf hshp
      refine ⟨p, ?_, hf.symm⟩
      rw [hs]
      exact List.mem_append_right _ hp
  · intro dir2 ctx capFn2 j acc2 f shp htop
    rw [processTuple_eq]
    by_cases h1 : pyStartsWith f "INVALID" = true
    · rw [if_pos h1]
    · rw [if_neg h1]
      simp only [if_pos htop]

/-- C8 witness: the successfully extracted image of a concrete slide has
its file among the saved files even though a record inside the margin
contributes no row and no box. -/
theorem C8_save_before_filter_witness :
    (∃ p ∈ (drill_list initState [goodShape] 3 "im/d_slide3").1.saved_files,
      pyBasename p.2 = "d_slide3_0.png") ∧
    processTuple "im" "c" (fun _ _ => "x") 1 ([], [])
      ("f.png", some (Shape.mk .picture "p" 0 0 5 5 none .raises []))
      = ([], []) := by
  constructor
  · apply (C8_save_before_filter [] "" "" (fun _ _ => "")
      ⟨[], [], initState⟩ 0 ⟨[]⟩).2.1 initState [goodShape] 3
      "im/d_slide3" "d_slide3_0.png" goodShape
    have h : (drill_list initState [goodShape] 3 "im/d_slide3").2 =
        [("d_slide3_0.png", some goodShape)] := rfl
    rw [h]
    exact List.mem_singleton_self _
  · exact (C8_save_before_filter [] "" "" (fun _ _ => "")
      ⟨[], [], initState⟩ 0 ⟨[]⟩).2.2 "im" "c" (fun _ _ => "x") 1
      ([], []) "f.png" _ (by decide)

/-- C10: every slide number at an output surface is the internal 0-based
index plus one: rows log i + 1 (hence every logged slide number is at
least 2), invalid entries read Slide i+1, and saved file names start with
the dir/base_slide i+1 prefix — always with 1 ≤ i < deck length. -/
theorem C10_one_based_numbers (ppt : List Slide) (nb dir : String)
    (capFn : String → String → String) :
    (∀ r ∈ (process_file ppt nb dir capFn).rows,
      ∃ i, 1 ≤ i ∧ i < ppt.length ∧ r.slide = i + 1) ∧
    (∀ r ∈ (process_file ppt nb dir capFn).rows, 2 ≤ r.slide) ∧
    (∀ e ∈ (process_file ppt nb dir capFn).state.invalid_images,
      ∃ i, 1 ≤ i ∧ i < ppt.length ∧
        ∃ nm, e = "Slide " ++ toString (i + 1) ++ ": " ++ nm) ∧
    (∀ p ∈ (process_file ppt nb dir capFn).state.saved_files,
      ∃ i, 1 ≤ i ∧ i < ppt.length ∧
        pyStartsWith p.2
          (dir ++ "/" ++ nb ++ "_slide" ++ toString (i + 1) ++ "_")
          = true) := by
  obtain ⟨hrows, -, hsaved, hinv, -, -⟩ := process_file_spec ppt nb dir capFn
  refine ⟨?_, ?_, hinv, hsaved⟩
  · intro r hr
    obtain ⟨i, h1, h2, h3, -⟩ := hrows r hr
    exact ⟨i, h1, h2, h3⟩
  · intro r hr
    obtain ⟨i, h1, -, h3, -⟩ := hrows r hr
    omega

/-- Deck realising the minimal output slide number 2: an empty title slide
and a second slide with one good and one failing picture. -/
def deckC10 : List Slide :=
  [⟨[]⟩, ⟨[goodShape, Shape.mk .picture "Bad" 0 0 0 0 none .raises []]⟩]

/-- C10 witness: the concrete run logs exactly one row, with slide number
2 = index 1 + 1, the smallest number that can appear. -/
theorem C10_one_based_witness :
    ((process_file deckC10 "d" "im" (fun _ _ => "cap")).rows =
      [⟨2, "Slide Content:\n", "d_slide2_0.png", "cap"⟩]) ∧
    2 ≤ (CaptionRow.mk 2 "Slide Content:\n" "d_slide2_0.png" "cap").slide
    :=
  ⟨by decide,
   (C10_one_based_numbers deckC10 "d" "im" (fun _ _ => "cap")).2.1 _
     (by decide)⟩

/-- C3: slide index 0 is skipped unconditionally — every logged row names
a slide number of at least 2, every added box sits on a slide of index at
least 1, and replacing slide 0 by any other slide changes neither the
extractor state (saved files, counter, invalid list) nor which images are
logged and annotated (only caption text, which may quote slide 0's text as
neighbouring context, can change). -/
theorem C3_slide_zero_skipped (s0 s0' : Slide) (rest : List Slide)
    (nb dir : String) (capFn : String → String → String) :
    (∀ r ∈ (process_file (s0 :: rest) nb dir capFn).rows, 2 ≤ r.slide) ∧
    (∀ b ∈ (process_file (s0 :: rest) nb dir capFn).boxes,
      1 ≤ b.slideIdx) ∧
    (process_file (s0 :: rest) nb dir capFn).state =
      (process_file (s0' :: rest) nb dir capFn).state ∧
    (process_file (s0 :: rest) nb dir capFn).rows.map rowKey =
      (process_file (s0' :: rest) nb dir capFn).rows.map rowKey ∧
    (process_file (s0 :: rest) nb dir capFn).boxes.map boxKey =
      (process_file (s0' :: rest) nb dir capFn).boxes.map boxKey := by
  obtain ⟨hrows, hboxes, -, -, -, -⟩ :=
    process_file_spec (s0 :: rest) nb dir capFn
  have h1 : process_file (s0 :: rest) nb dir capFn =
      processSlides (s0 :: rest) nb dir capFn 1 rest ⟨[], [], initState⟩ :=
    rfl
  have h2 : process_file (s0' :: rest) nb dir capFn =
      processSlides (s0' :: rest) nb dir capFn 1 rest ⟨[], [], initState⟩ :=
    rfl
  obtain ⟨hst, hr, hb⟩ := processSlides_keys (s0 :: rest) (s0' :: rest) nb
    dir capFn rest 1 ⟨[], [], initState⟩ ⟨[], [], initState⟩ ⟨rfl, rfl, rfl⟩
  refine ⟨?_, ?_, ?_, ?_, ?_⟩
  · intro r hrm
    obtain ⟨i, hi1, -, hi3, -⟩ := hrows r hrm
    omega
  · intro b hbm
    obtain ⟨i, hi1, -, hi3⟩ := hboxes b hbm
    omega
  · rw [h1, h2]; exact hst
  · rw [h1, h2]; exact hr
  · rw [h1, h2]; exact hb

/-- A title slide carrying a picture, to show slide 0's content is
ignored. -/
def slideC3a : Slide :=
  ⟨[Shape.mk .picture "t" 0 400000 9 9 none (.ok ⟨[2], "png"⟩) []]⟩

/-- The second slide of the C3 witness deck. -/
def slideC3b : Slide := ⟨[goodShape]⟩

/-- C3 witness: with a picture on slide 0 and one on slide 1, the run logs
exactly one row — slide number 2, index 0 of the run — and its slide
number is at least 2. -/
theorem C3_slide_zero_witness :
    ((process_file [slideC3a, slideC3b] "d" "im" (fun _ _ => "cap")).rows
      = [⟨2, "Slide Content:\n", "d_slide2_0.png", "cap"⟩]) ∧
    2 ≤ (CaptionRow.mk 2 "Slide Content:\n" "d_slide2_0.png" "cap").slide
    :=
  ⟨by decide,
   (C3_slide_zero_skipped slideC3a ⟨[]⟩ [slideC3b] "d" "im"
     (fun _ _ => "cap")).1 _ (by decide)⟩

/-- C6: for any in-bounds slide index the context fragment is exactly the
Slide Content block of the slide's own (possibly empty) text, followed by
a Related Slide Hints block if and only if at least one in-bounds
neighbour (offset -1 then +1, ascending) has non-empty text, the neighbour
texts joined by the fixed delimiter; with no such neighbour there is no
hints section. -/
theorem C6_context_structure (slides : List Slide) (i : Nat) (h : i < slides.length) :
    get_context_text slides i 1 =
      (let content := "Slide Content:\n" ++
        pyStrip (get_slide_text (slides.getD i ⟨[]⟩))
       let prev : List String :=
         if 1 ≤ i ∧ pyStrip (get_slide_text (slides.getD (i - 1) ⟨[]⟩)) ≠ ""
         then [get_slide_text (slides.getD (i - 1) ⟨[]⟩)] else []
       let next : List String :=
         if i + 1 < slides.length ∧
             pyStrip (get_slide_text (slides.getD (i + 1) ⟨[]⟩)) ≠ ""
         then [get_slide_text (slides.getD (i + 1) ⟨[]⟩)] else []
       if (prev ++ next).isEmpty then content
       else content ++ "\n\n" ++
         ("\n\nRelated Slide Hints:\n" ++
           pyJoin "\n\n---\n\n" (prev ++ next))) := by
  rw [get_context_text]
  dsimp only
  rw [show (List.range (2 * 1 + 1)).map
      (fun (k : Nat) => (k : Int) - ((1 : Nat) : Int)) = [-1, 0, 1] from rfl]
  simp only [List.filterMap_cons, List.filterMap_nil]
  have c1 : ¬((i : Int) + -1 = (i : Int)) := by omega
  have c2 : ((i : Int) + 0 = (i : Int)) := by omega
  have c3 : ¬((i : Int) + 1 = (i : Int)) := by omega
  rw [if_neg c1, if_pos c2, if_neg c3]
  by_cases hp : 1 <= i
  case neg =>
    have hnp : ¬(1 <= i ∧
        pyStrip (get_slide_text (slides.getD (i - 1) ⟨[]⟩)) ≠ "") :=
      fun hc => hp hc.1
    have b1 : ((i : Int) + -1 < 0 ∨
        ((slides.length : Nat) : Int) <= (i : Int) + -1) := by omega
    rw [if_pos b1]
    by_cases hn : i + 1 < slides.length
    case pos =>
      have b3 : ¬((i : Int) + 1 < 0 ∨
          ((slides.length : Nat) : Int) <= (i : Int) + 1) := by omega
      rw [if_neg b3]
      have htn3 : ((i : Int) + 1).toNat = i + 1 := by omega
      rw [htn3]
      by_cases he3 : pyStrip (get_slide_text (slides.getD (i + 1) ⟨[]⟩)) = ""
      case pos =>
        have hnn : ¬(i + 1 < slides.length ∧
            pyStrip (get_slide_text (slides.getD (i + 1) ⟨[]⟩)) ≠ "") :=
          fun hc => hc.2 he3
        rw [if_pos he3, if_neg hnp, if_neg hnn]
        simp [pyJoin]
      case neg =>
        have hyy : (i + 1 < slides.length ∧
            pyStrip (get_slide_text (slides.getD (i + 1) ⟨[]⟩)) ≠ "") :=
          ⟨hn, he3⟩
        rw [if_neg he3, if_neg hnp, if_pos hyy]
        simp [pyJoin]
    case neg =>
      have hnn : ¬(i + 1 < slides.length ∧
          pyStrip (get_slide_text (slides.getD (i + 1) ⟨[]⟩)) ≠ "") :=
        fun hc => hn hc.1
      have b3 : ((i : Int) + 1 < 0 ∨
          ((slides.length : Nat) : Int) <= (i : Int) + 1) := by omega
      rw [if_pos b3, if_neg hnp, if_neg hnn]
      simp [pyJoin]
  case pos =>
    have b1 : ¬((i : Int) + -1 < 0 ∨
        ((slides.length : Nat) : Int) <= (i : Int) + -1) := by omega
    rw [if_neg b1]
    have htn : ((i : Int) + -1).toNat = i - 1 := by omega
    rw [htn]
    by_cases hn : i + 1 < slides.length
    case pos =>
      have b3 : ¬((i : Int) + 1 < 0 ∨
          ((slides.length : Nat) : Int) <= (i : Int) + 1) := by omega
      rw [if_neg b3]
      have htn3 : ((i : Int) + 1).toNat = i + 1 := by omega
      rw [htn3]
      by_cases he1 : pyStrip (get_slide_text (slides.getD (i - 1) ⟨[]⟩)) = ""
      case pos =>
        have hnp : ¬(1 <= i ∧
            pyStrip (get_slide_text (slides.getD (i - 1) ⟨[]⟩)) ≠ "") :=
          fun hc => hc.2 he1
        rw [if_pos he1, if_neg hnp]
        by_cases he3 : pyStrip (get_slide_text (slides.getD (i + 1) ⟨[]⟩)) = ""
        case pos =>
          have hnn : ¬(i + 1 < slides.length ∧
              pyStrip (get_slide_text (slides.getD (i + 1) ⟨[]⟩)) ≠ "") :=
            fun hc => hc.2 he3
          rw [if_pos he3, if_neg hnn]
          simp [pyJoin]
        case neg =>
          have hyy : (i + 1 < slides.length ∧
              pyStrip (get_slide_text (slides.getD (i + 1) ⟨[]⟩)) ≠ "") :=
            ⟨hn, he3⟩
          rw [if_neg he3, if_pos hyy]
          simp [pyJoin]
      case neg =>
        have hpp : (1 <= i ∧
            pyStrip (get_slide_text (slides.getD (i - 1) ⟨[]⟩)) ≠ "") :=
          ⟨hp, he1⟩
        rw [if_neg he1, if_pos hpp]
        by_cases he3 : pyStrip (get_slide_text (slides.getD (i + 1) ⟨[]⟩)) = ""
        case pos =>
          have hnn : ¬(i + 1 < slides.length ∧
              pyStrip (get_slide_text (slides.getD (i + 1) ⟨[]⟩)) ≠ "") :=
            fun hc => hc.2 he3
          rw [if_pos he3, if_neg hnn]
          simp [pyJoin]
        case neg =>
          have hyy : (i + 1 < slides.length ∧
              pyStrip (get_slide_text (slides.getD (i + 1) ⟨[]⟩)) ≠ "") :=
            ⟨hn, he3⟩
          rw [if_neg he3, if_pos hyy]
          simp [pyJoin]
    case neg =>
      have hnn : ¬(i + 1 < slides.length ∧
          pyStrip (get_slide_text (slides.getD (i + 1) ⟨[]⟩)) ≠ "") :=
        fun hc => hn hc.1
      have b3 : ((i : Int) + 1 < 0 ∨
          ((slides.length : Nat) : Int) <= (i : Int) + 1) := by omega
      rw [if_pos b3, if_neg hnn]
      by_cases he1 : pyStrip (get_slide_text (slides.getD (i - 1) ⟨[]⟩)) = ""
      case pos =>
        have hnp : ¬(1 <= i ∧
            pyStrip (get_slide_text (slides.getD (i - 1) ⟨[]⟩)) ≠ "") :=
          fun hc => hc.2 he1
        rw [if_pos he1, if_neg hnp]
        simp [pyJoin]
      case neg =>
        have hpp : (1 <= i ∧
            pyStrip (get_slide_text (slides.getD (i - 1) ⟨[]⟩)) ≠ "") :=
          ⟨hp, he1⟩
        rw [if_neg he1, if_pos hpp]
        simp [pyJoin]

/-- Three-slide deck for the C6 witness: text on both neighbours of the
middle slide. -/
def deckC6 : List Slide :=
  [⟨[Shape.mk .other "t1" 0 0 0 0 (some "a") .noAttr []]⟩, ⟨[]⟩,
   ⟨[Shape.mk .other "t2" 0 0 0 0 (some "b") .noAttr []]⟩]

/-- C6 witness: the context of the middle slide of the concrete deck — an
empty Slide Content block and both neighbour texts in ascending offset
order under the hints label. -/
theorem C6_context_witness :
    get_context_text deckC6 1 1 =
      "Slide Content:\n\n\n\n\nRelated Slide Hints:\na\n\n---\n\nb" :=
  (C6_context_structure deckC6 1 (by decide)).trans (by decide)

end AutoCapPPT
